import Mathlib

/-!
Verification development for the Plinko game repository.

The JavaScript sources are embedded shallowly:

* JS numbers are modelled as exact rationals (`ℚ`); where the source takes a
  genuine square root (`Math.sqrt`, `Math.pow` with half-integer exponent) the
  value `a + √u` is represented exactly by the pair of rationals `(a, u)` and
  compared / floored through decidable predicates, with bridge lemmas relating
  these to `Real.sqrt`.
* The collision code of `src/js/physics.js` is embedded over `ℝ`; a result of
  `none : Option (Ball ℝ)` models a non-finite (NaN) outcome of the JS
  arithmetic.
* `Math.random()` draws are passed in explicitly as parameters.
-/

/-- Risk tiers selectable in the UI: low, medium, high. -/
inductive Risk : Type
  | low
  | medium
  | high
deriving DecidableEq, Repr

/-- Decidable test for `t ≤ √u` (meaningful when `0 ≤ u`). -/
def sqrtLE (t u : ℚ) : Prop := t ≤ 0 ∨ t ^ 2 ≤ u

instance (t u : ℚ) : Decidable (sqrtLE t u) := by unfold sqrtLE; infer_instance

/-- Decidable test for `t < √u`. -/
def sqrtLT (t u : ℚ) : Prop := t < 0 ∨ t ^ 2 < u

instance (t u : ℚ) : Decidable (sqrtLT t u) := by unfold sqrtLT; infer_instance

/-- Exact computation of `⌊a + √u⌋` for rationals `a` and `u ≥ 0`. -/
def floorAddSqrt (a u : ℚ) : ℤ :=
  let b : ℤ := ⌊a⌋ + (Nat.sqrt ⌊u⌋.toNat : ℤ)
  if sqrtLE ((b : ℚ) + 1 - a) u then b + 1 else b

lemma sqrtLE_iff {t u : ℚ} (hu : 0 ≤ u) :
    sqrtLE t u ↔ (t : ℝ) ≤ Real.sqrt (u : ℚ) := by
  constructor
  · rintro (h | h)
    · exact le_trans (by exact_mod_cast h) (Real.sqrt_nonneg _)
    · exact Real.le_sqrt_of_sq_le (by exact_mod_cast h)
  · intro h
    rcases le_or_lt t 0 with h0 | h0
    · exact Or.inl h0
    · refine Or.inr ?_
      have hx : (0 : ℝ) ≤ (t : ℚ) := by exact_mod_cast le_of_lt h0
      have hy : (0 : ℝ) ≤ ((u : ℚ) : ℝ) := by exact_mod_cast hu
      have := (Real.le_sqrt hx hy).mp h
      exact_mod_cast this

lemma sqrtLT_iff {t u : ℚ} :
    sqrtLT t u ↔ (t : ℝ) < Real.sqrt (u : ℚ) := by
  constructor
  · rintro (h | h)
    · exact lt_of_lt_of_le (by exact_mod_cast h) (Real.sqrt_nonneg _)
    · exact Real.lt_sqrt_of_sq_lt (by exact_mod_cast h)
  · intro h
    rcases lt_or_le t 0 with h0 | h0
    · exact Or.inl h0
    · refine Or.inr ?_
      have hx : (0 : ℝ) ≤ (t : ℚ) := by exact_mod_cast h0
      have := (Real.lt_sqrt hx).mp h
      exact_mod_cast this

lemma floorAddSqrt_eq_floor {a u : ℚ} (hu : 0 ≤ u) :
    floorAddSqrt a u = ⌊(a : ℝ) + Real.sqrt (u : ℚ)⌋ := by
  unfold floorAddSqrt
  set s : ℕ := Nat.sqrt ⌊u⌋.toNat with hs
  set b : ℤ := ⌊a⌋ + (s : ℤ) with hb
  have h0 : (0 : ℤ) ≤ ⌊u⌋ := Int.floor_nonneg.mpr hu
  have htn : ((⌊u⌋.toNat : ℚ)) ≤ u := by
    have h1 : ((⌊u⌋.toNat : ℤ) : ℚ) ≤ u := by
      rw [Int.toNat_of_nonneg h0]
      exact Int.floor_le u
    exact_mod_cast h1
  have htn2 : u < ((⌊u⌋.toNat : ℚ)) + 1 := by
    have h1 : u < ((⌊u⌋.toNat : ℤ) : ℚ) + 1 := by
      rw [Int.toNat_of_nonneg h0]
      exact Int.lt_floor_add_one u
    exact_mod_cast h1
  have hsle : (s : ℝ) ≤ Real.sqrt (u : ℚ) := by
    apply Real.le_sqrt_of_sq_le
    have h1 : ((s : ℚ)) ^ 2 ≤ ((⌊u⌋.toNat : ℚ)) := by exact_mod_cast Nat.sqrt_le' ⌊u⌋.toNat
    have h2 : ((s : ℚ)) ^ 2 ≤ u := le_trans h1 htn
    exact_mod_cast h2
  have hslt : Real.sqrt (u : ℚ) < (s : ℝ) + 1 := by
    refine (Real.sqrt_lt' (by positivity)).mpr ?_
    have h1 : ⌊u⌋.toNat < (s + 1) ^ 2 := Nat.lt_succ_sqrt' ⌊u⌋.toNat
    have h2 : ((⌊u⌋.toNat : ℚ)) + 1 ≤ ((s : ℚ) + 1) ^ 2 := by exact_mod_cast h1
    have h3 : u < ((s : ℚ) + 1) ^ 2 := lt_of_lt_of_le htn2 h2
    exact_mod_cast h3
  have hfa : ((⌊a⌋ : ℤ) : ℝ) ≤ (a : ℝ) := by
    have h1 := Int.floor_le (a : ℝ)
    rw [Rat.floor_cast] at h1
    exact h1
  have hfa2 : (a : ℝ) < ((⌊a⌋ : ℤ) : ℝ) + 1 := by
    have h1 := Int.lt_floor_add_one (a : ℝ)
    rw [Rat.floor_cast] at h1
    exact h1
  have hbr : ((b : ℤ) : ℝ) = ((⌊a⌋ : ℤ) : ℝ) + (s : ℝ) := by
    rw [hb]
    push_cast
    ring
  by_cases h : sqrtLE ((b : ℚ) + 1 - a) u
  · rw [if_pos h]
    have hle := (sqrtLE_iff hu).mp h
    push_cast at hle
    symm
    rw [Int.floor_eq_iff]
    constructor
    · push_cast
      linarith
    · push_cast
      linarith
  · rw [if_neg h]
    have hlt : Real.sqrt (u : ℚ) < ((b : ℤ) : ℝ) + 1 - (a : ℝ) := by
      by_contra hcon
      apply h
      apply (sqrtLE_iff hu).mpr
      push_cast
      linarith [le_of_not_lt hcon]
    symm
    rw [Int.floor_eq_iff]
    constructor
    · linarith
    · linarith

/-- Post-processing rounding from the source, applied to the value `m = a + √u`:
values above 10 round to the nearest integer, values in (2, 10] to the nearest
0.5, the rest to the nearest 0.1 (JS `Math.round x = ⌊x + 1/2⌋`). -/
def roundVal (a u : ℚ) : ℚ :=
  if sqrtLT (10 - a) u then (floorAddSqrt (a + 1/2) u : ℚ)
  else if sqrtLT (2 - a) u then (floorAddSqrt (2 * a + 1/2) (4 * u) : ℚ) / 2
  else (floorAddSqrt (10 * a + 1/2) (100 * u) : ℚ) / 10

/-- Reference form of the source's rounding over the reals. -/
noncomputable def roundMultR (m : ℝ) : ℚ :=
  if 10 < m then (⌊m + 1/2⌋ : ℚ)
  else if 2 < m then (⌊2 * m + 1/2⌋ : ℚ) / 2
  else (⌊10 * m + 1/2⌋ : ℚ) / 10

lemma roundVal_eq {a u : ℚ} (hu : 0 ≤ u) :
    roundVal a u = roundMultR ((a : ℝ) + Real.sqrt (u : ℚ)) := by
  have hu4 : (0 : ℚ) ≤ 4 * u := by linarith
  have hu100 : (0 : ℚ) ≤ 100 * u := by linarith
  have h4 : Real.sqrt ((4 * u : ℚ) : ℚ) = 2 * Real.sqrt (u : ℚ) := by
    have : (((4 * u : ℚ)) : ℝ) = (2 : ℝ) ^ 2 * ((u : ℚ) : ℝ) := by push_cast; ring
    rw [show Real.sqrt ((4 * u : ℚ) : ℚ) = Real.sqrt (((4 * u : ℚ)) : ℝ) from rfl, this,
      Real.sqrt_mul (by positivity), Real.sqrt_sq (by norm_num)]
  have h100 : Real.sqrt ((100 * u : ℚ) : ℚ) = 10 * Real.sqrt (u : ℚ) := by
    have : (((100 * u : ℚ)) : ℝ) = (10 : ℝ) ^ 2 * ((u : ℚ) : ℝ) := by push_cast; ring
    rw [show Real.sqrt ((100 * u : ℚ) : ℚ) = Real.sqrt (((100 * u : ℚ)) : ℝ) from rfl, this,
      Real.sqrt_mul (by positivity), Real.sqrt_sq (by norm_num)]
  have hc1 : sqrtLT (10 - a) u ↔ 10 < (a : ℝ) + Real.sqrt (u : ℚ) := by
    rw [sqrtLT_iff]
    push_cast
    constructor <;> intro h <;> linarith
  have hc2 : sqrtLT (2 - a) u ↔ 2 < (a : ℝ) + Real.sqrt (u : ℚ) := by
    rw [sqrtLT_iff]
    push_cast
    constructor <;> intro h <;> linarith
  unfold roundVal roundMultR
  by_cases h1 : sqrtLT (10 - a) u
  · rw [if_pos h1, if_pos (hc1.mp h1), floorAddSqrt_eq_floor hu]
    congr 2
    push_cast
    ring
  · rw [if_neg h1, if_neg (fun hcon => h1 (hc1.mpr hcon))]
    by_cases h2 : sqrtLT (2 - a) u
    · rw [if_pos h2, if_pos (hc2.mp h2), floorAddSqrt_eq_floor hu4, h4]
      congr 3
      push_cast
      ring
    · rw [if_neg h2, if_neg (fun hcon => h2 (hc2.mpr hcon)), floorAddSqrt_eq_floor hu100, h100]
      congr 3
      push_cast
      ring

lemma roundMultR_mono {m1 m2 : ℝ} (h : m1 ≤ m2) : roundMultR m1 ≤ roundMultR m2 := by
  have floor_le_of_lt : ∀ (r : ℝ) (z : ℤ), r < (z : ℝ) + 1 → ⌊r⌋ ≤ z := by
    intro r z hr
    have : ⌊r⌋ < z + 1 := Int.floor_lt.mpr (by push_cast; linarith)
    omega
  unfold roundMultR
  by_cases h1 : 10 < m1
  · rw [if_pos h1, if_pos (by linarith : 10 < m2)]
    exact_mod_cast Int.floor_le_floor (by linarith)
  · rw [if_neg h1]
    by_cases h2 : 10 < m2
    · rw [if_pos h2]
      have hR : (10 : ℤ) ≤ ⌊m2 + 1/2⌋ := Int.le_floor.mpr (by push_cast; linarith)
      by_cases h3 : 2 < m1
      · rw [if_pos h3]
        have hL : ⌊2 * m1 + 1/2⌋ ≤ 20 := floor_le_of_lt _ _ (by push_cast; linarith)
        have hL' : ((⌊2 * m1 + 1/2⌋ : ℤ) : ℚ) ≤ 20 := by exact_mod_cast hL
        have hR' : (10 : ℚ) ≤ ((⌊m2 + 1/2⌋ : ℤ) : ℚ) := by exact_mod_cast hR
        linarith
      · rw [if_neg h3]
        have hL : ⌊10 * m1 + 1/2⌋ ≤ 20 := floor_le_of_lt _ _ (by push_cast; linarith)
        have hL' : ((⌊10 * m1 + 1/2⌋ : ℤ) : ℚ) ≤ 20 := by exact_mod_cast hL
        have hR' : (10 : ℚ) ≤ ((⌊m2 + 1/2⌋ : ℤ) : ℚ) := by exact_mod_cast hR
        linarith
    · rw [if_neg h2]
      by_cases h3 : 2 < m1
      · rw [if_pos h3, if_pos (by linarith : 2 < m2)]
        have := Int.floor_le_floor (show 2 * m1 + 1/2 ≤ 2 * m2 + 1/2 by linarith)
        have h' : ((⌊2 * m1 + 1/2⌋ : ℤ) : ℚ) ≤ ((⌊2 * m2 + 1/2⌋ : ℤ) : ℚ) := by exact_mod_cast this
        linarith
      · rw [if_neg h3]
        by_cases h4 : 2 < m2
        · rw [if_pos h4]
          have hL : ⌊10 * m1 + 1/2⌋ ≤ 20 := floor_le_of_lt _ _ (by push_cast; linarith)
          have hR : (4 : ℤ) ≤ ⌊2 * m2 + 1/2⌋ := Int.le_floor.mpr (by push_cast; linarith)
          have hL' : ((⌊10 * m1 + 1/2⌋ : ℤ) : ℚ) ≤ 20 := by exact_mod_cast hL
          have hR' : (4 : ℚ) ≤ ((⌊2 * m2 + 1/2⌋ : ℤ) : ℚ) := by exact_mod_cast hR
          linarith
        · rw [if_neg h4]
          have := Int.floor_le_floor (show 10 * m1 + 1/2 ≤ 10 * m2 + 1/2 by linarith)
          have h' : ((⌊10 * m1 + 1/2⌋ : ℤ) : ℚ) ≤ ((⌊10 * m2 + 1/2⌋ : ℤ) : ℚ) := by
            exact_mod_cast this
          linarith

lemma roundVal_mono (a : ℚ) {u v : ℚ} (hu : 0 ≤ u) (huv : u ≤ v) :
    roundVal a u ≤ roundVal a v := by
  rw [roundVal_eq hu, roundVal_eq (le_trans hu huv)]
  apply roundMultR_mono
  have : Real.sqrt (u : ℚ) ≤ Real.sqrt (v : ℚ) := Real.sqrt_le_sqrt (by exact_mod_cast huv)
  linarith

lemma roundVal_eq_int {a u : ℚ} (z : ℤ) (hu : 0 ≤ u) (h10 : sqrtLT (10 - a) u)
    (h1 : sqrtLE ((z : ℚ) - (a + 1/2)) u)
    (h2 : ¬ sqrtLE (((z : ℚ) + 1) - (a + 1/2)) u) :
    roundVal a u = (z : ℚ) := by
  rw [roundVal, if_pos h10]
  have hfl : floorAddSqrt (a + 1/2) u = z := by
    rw [floorAddSqrt_eq_floor hu, Int.floor_eq_iff]
    have hle := (sqrtLE_iff hu).mp h1
    push_cast at hle
    have hlt : Real.sqrt (u : ℚ) < (z : ℝ) + 1 - ((a : ℝ) + 1/2) := by
      by_contra hcon
      apply h2
      apply (sqrtLE_iff hu).mpr
      push_cast
      linarith [le_of_not_lt hcon]
    constructor
    · push_cast
      linarith
    · push_cast
      linarith
  rw [hfl]

/-- Tier parameters from `Utils.generateMultipliers` in `src/unnamed/part_001`:
low `{min 0.2, max 9, curve 1.5}`, medium `{min 0.3, max 25, curve 2.5}`,
high `{min 0.2, max 1000, curve 4}`.  The third component stores `2 * curve`
so that `Math.pow d curve` is represented exactly as `√(d ^ (2*curve))`. -/
def curveParams : Risk → ℚ × ℚ × ℕ
  | Risk.low => (0.2, 9, 3)
  | Risk.medium => (0.3, 25, 5)
  | Risk.high => (0.2, 1000, 8)

/-- Curve formula of `Utils.generateMultipliers` (the branch without high-risk
overrides): `min + (max - min) * d^curve` with `d = |i - center|/center`,
`center = ⌊slots/2⌋`, followed by the source's rounding.  The value is carried
as `a + √u` with `a = min` and `u = (max-min)^2 * d^(2*curve)`. -/
def curveMultiplier (risk : Risk) (slots i : ℕ) : ℚ :=
  let c : ℕ := slots / 2
  let d : ℚ := |(i : ℚ) - (c : ℚ)| / (c : ℚ)
  roundVal (curveParams risk).1 (((curveParams risk).2.1 - (curveParams risk).1) ^ 2 * d ^ (curveParams risk).2.2)

/-- One loop iteration of `Utils.generateMultipliers`: the high-risk edge
overrides (1000 / 130 / 26 at the outermost index pairs), the curve formula
otherwise, then the high-risk centre overrides for indices in `[4, slots-5]`. -/
def multiplierAt (risk : Risk) (slots i : ℕ) : ℚ :=
  let c : ℕ := slots / 2
  let base : ℚ :=
    if risk = Risk.high ∧ ((i : ℤ) = 0 ∨ (i : ℤ) = (slots : ℤ) - 1) then 1000
    else if risk = Risk.high ∧ ((i : ℤ) = 1 ∨ (i : ℤ) = (slots : ℤ) - 2) then 130
    else if risk = Risk.high ∧ ((i : ℤ) = 2 ∨ (i : ℤ) = (slots : ℤ) - 3) then 26
    else curveMultiplier risk slots i
  if risk = Risk.high ∧ 4 ≤ (i : ℤ) ∧ (i : ℤ) ≤ (slots : ℤ) - 5 then
    if |(i : ℤ) - (c : ℤ)| ≤ 1 then 0.2
    else if |(i : ℤ) - (c : ℤ)| ≤ 3 then 2
    else base
  else base

/-- Embedding of `Utils.generateMultipliers(riskLevel, slots)`. -/
def generateMultipliers (risk : Risk) (slots : ℕ) : List ℚ :=
  (List.range slots).map (multiplierAt risk slots)

/-- Hard-coded multiplier tables of `PlinkoGame.generateMultipliers` in
`src/scripts/game-logic.js`. -/
def gameLogicMultipliers : Risk → List ℚ
  | Risk.low => [0.2, 0.5, 1, 2, 3, 5, 9]
  | Risk.medium => [0.3, 1, 2, 5, 10, 15, 25]
  | Risk.high => [1000, 180, 260, 91, 48, 22, 2, 2, 2, 2, 24, 44, 94, 268, 630, 0]

/-! ### Evaluation of the high-risk 16-slot table -/

lemma abs_three_sub_eight : |((3 : ℕ) : ℚ) - ((16 / 2 : ℕ) : ℚ)| = 5 := by
  rw [abs_sub_comm, abs_of_nonneg] <;> norm_num

lemma abs_four_sub_eight : |((4 : ℕ) : ℚ) - ((16 / 2 : ℕ) : ℚ)| = 4 := by
  rw [abs_sub_comm, abs_of_nonneg] <;> norm_num

lemma abs_twelve_sub_eight : |((12 : ℕ) : ℚ) - ((16 / 2 : ℕ) : ℚ)| = 4 := by
  rw [abs_sub_comm, abs_of_nonpos] <;> norm_num

lemma high16_at3 : multiplierAt Risk.high 16 3 = 153 := by
  have hcurve : curveMultiplier Risk.high 16 3 = 153 := by
    simp only [curveMultiplier, curveParams, abs_three_sub_eight]
    rw [show (153 : ℚ) = ((153 : ℤ) : ℚ) by norm_num]
    apply roundVal_eq_int
    · positivity
    · unfold sqrtLT
      norm_num
    · unfold sqrtLE
      norm_num
    · unfold sqrtLE
      push_neg
      constructor <;> norm_num
  simp only [multiplierAt]
  norm_num [hcurve]

lemma high16_at4 : multiplierAt Risk.high 16 4 = 63 := by
  have hcurve : curveMultiplier Risk.high 16 4 = 63 := by
    simp only [curveMultiplier, curveParams, abs_four_sub_eight]
    rw [show (63 : ℚ) = ((63 : ℤ) : ℚ) by norm_num]
    apply roundVal_eq_int
    · positivity
    · unfold sqrtLT
      norm_num
    · unfold sqrtLE
      norm_num
    · unfold sqrtLE
      push_neg
      constructor <;> norm_num
  simp only [multiplierAt]
  norm_num [hcurve]

lemma high16_at12 : multiplierAt Risk.high 16 12 = 63 := by
  have hcurve : curveMultiplier Risk.high 16 12 = 63 := by
    simp only [curveMultiplier, curveParams, abs_twelve_sub_eight]
    rw [show (63 : ℚ) = ((63 : ℤ) : ℚ) by norm_num]
    apply roundVal_eq_int
    · positivity
    · unfold sqrtLT
      norm_num
    · unfold sqrtLE
      norm_num
    · unfold sqrtLE
      push_neg
      constructor <;> norm_num
  simp only [multiplierAt]
  norm_num [hcurve]

lemma range_sixteen :
    List.range 16 = [0, 1, 2, 3, 4, 5, 6, 7, 8, 9, 10, 11, 12, 13, 14, 15] := by
  rw [show (16 : ℕ) = 15 + 1 from rfl, List.range_succ]
  rw [show (15 : ℕ) = 14 + 1 from rfl, List.range_succ]
  rw [show (14 : ℕ) = 13 + 1 from rfl, List.range_succ]
  rw [show (13 : ℕ) = 12 + 1 from rfl, List.range_succ]
  rw [show (12 : ℕ) = 11 + 1 from rfl, List.range_succ]
  rw [show (11 : ℕ) = 10 + 1 from rfl, List.range_succ]
  rw [show (10 : ℕ) = 9 + 1 from rfl, List.range_succ]
  rw [show (9 : ℕ) = 8 + 1 from rfl, List.range_succ]
  rw [show (8 : ℕ) = 7 + 1 from rfl, List.range_succ]
  rw [show (7 : ℕ) = 6 + 1 from rfl, List.range_succ]
  rw [show (6 : ℕ) = 5 + 1 from rfl, List.range_succ]
  rw [show (5 : ℕ) = 4 + 1 from rfl, List.range_succ]
  rw [show (4 : ℕ) = 3 + 1 from rfl, List.range_succ]
  rw [show (3 : ℕ) = 2 + 1 from rfl, List.range_succ]
  rw [show (2 : ℕ) = 1 + 1 from rfl, List.range_succ]
  rw [show (1 : ℕ) = 0 + 1 from rfl, List.range_succ]
  rw [List.range_zero]
  simp

lemma high16_at0 : multiplierAt Risk.high 16 0 = 1000 := by
  simp only [multiplierAt]
  rw [if_neg (by norm_num), if_pos (by norm_num)]

lemma high16_at1 : multiplierAt Risk.high 16 1 = 130 := by
  simp only [multiplierAt]
  rw [if_neg (by norm_num), if_neg (by norm_num), if_pos (by norm_num)]

lemma high16_at2 : multiplierAt Risk.high 16 2 = 26 := by
  simp only [multiplierAt]
  rw [if_neg (by norm_num), if_neg (by norm_num), if_neg (by norm_num), if_pos (by norm_num)]

lemma high16_at5 : multiplierAt Risk.high 16 5 = 2 := by
  simp only [multiplierAt]
  rw [if_pos (by decide), if_neg (by decide), if_pos (by decide)]

lemma high16_at6 : multiplierAt Risk.high 16 6 = 2 := by norm_num [multiplierAt]

lemma high16_at7 : multiplierAt Risk.high 16 7 = 0.2 := by norm_num [multiplierAt]

lemma high16_at8 : multiplierAt Risk.high 16 8 = 0.2 := by norm_num [multiplierAt]

lemma high16_at9 : multiplierAt Risk.high 16 9 = 0.2 := by norm_num [multiplierAt]

lemma high16_at10 : multiplierAt Risk.high 16 10 = 2 := by norm_num [multiplierAt]

lemma high16_at11 : multiplierAt Risk.high 16 11 = 2 := by
  simp only [multiplierAt]
  rw [if_pos (by decide), if_neg (by decide), if_pos (by decide)]

lemma high16_at13 : multiplierAt Risk.high 16 13 = 26 := by
  simp only [multiplierAt]
  rw [if_neg (by norm_num), if_neg (by norm_num), if_neg (by norm_num), if_pos (by norm_num)]

lemma high16_at14 : multiplierAt Risk.high 16 14 = 130 := by
  simp only [multiplierAt]
  rw [if_neg (by norm_num), if_neg (by norm_num), if_pos (by norm_num)]

lemma high16_at15 : multiplierAt Risk.high 16 15 = 1000 := by
  simp only [multiplierAt]
  rw [if_neg (by norm_num), if_pos (by norm_num)]

lemma generateMultipliers_high16_eval :
    generateMultipliers Risk.high 16 =
      [1000, 130, 26, 153, 63, 2, 2, 0.2, 0.2, 0.2, 2, 2, 63, 26, 130, 1000] := by
  rw [generateMultipliers, range_sixteen]
  simp only [List.map_cons, List.map_nil]
  rw [high16_at0, high16_at1, high16_at2, high16_at3, high16_at4, high16_at5, high16_at6,
    high16_at7, high16_at8, high16_at9, high16_at10, high16_at11, high16_at12, high16_at13,
    high16_at14, high16_at15]

lemma generateMultipliers_getD (risk : Risk) (slots i : ℕ) (hi : i < slots) :
    (generateMultipliers risk slots).getD i 0 = multiplierAt risk slots i := by
  rw [generateMultipliers, List.getD_eq_getElem?_getD, List.getElem?_map,
    List.getElem?_range hi]
  rfl

lemma multiplierAt_symm (risk : Risk) (slots i : ℕ) (hodd : slots % 2 = 1) (hi : i < slots) :
    multiplierAt risk slots i = multiplierAt risk slots (slots - 1 - i) := by
  set j := slots - 1 - i with hjdef
  have hj : (j : ℤ) = (slots : ℤ) - 1 - (i : ℤ) := by omega
  have hneg : (j : ℤ) - ((slots / 2 : ℕ) : ℤ) = -((i : ℤ) - ((slots / 2 : ℕ) : ℤ)) := by omega
  have hcurve : curveMultiplier risk slots j = curveMultiplier risk slots i := by
    simp only [curveMultiplier]
    have hq : (j : ℚ) - ((slots / 2 : ℕ) : ℚ) = -((i : ℚ) - ((slots / 2 : ℕ) : ℚ)) := by
      exact_mod_cast hneg
    rw [hq, abs_neg]
  have e1 : ((j : ℤ) = 0 ∨ (j : ℤ) = (slots : ℤ) - 1) ↔
      ((i : ℤ) = 0 ∨ (i : ℤ) = (slots : ℤ) - 1) := by omega
  have e2 : ((j : ℤ) = 1 ∨ (j : ℤ) = (slots : ℤ) - 2) ↔
      ((i : ℤ) = 1 ∨ (i : ℤ) = (slots : ℤ) - 2) := by omega
  have e3 : ((j : ℤ) = 2 ∨ (j : ℤ) = (slots : ℤ) - 3) ↔
      ((i : ℤ) = 2 ∨ (i : ℤ) = (slots : ℤ) - 3) := by omega
  have e4 : (4 ≤ (j : ℤ) ∧ (j : ℤ) ≤ (slots : ℤ) - 5) ↔
      (4 ≤ (i : ℤ) ∧ (i : ℤ) ≤ (slots : ℤ) - 5) := by omega
  have e5 : (|(j : ℤ) - ((slots / 2 : ℕ) : ℤ)| ≤ 1) ↔
      (|(i : ℤ) - ((slots / 2 : ℕ) : ℤ)| ≤ 1) := by rw [hneg, abs_neg]
  have e6 : (|(j : ℤ) - ((slots / 2 : ℕ) : ℤ)| ≤ 3) ↔
      (|(i : ℤ) - ((slots / 2 : ℕ) : ℤ)| ≤ 3) := by rw [hneg, abs_neg]
  simp only [multiplierAt]
  simp only [e1, e2, e3, e4, e5, e6, hcurve]

/-- Claim C1, counterexample: the parametric generator
`Utils.generateMultipliers('high', 16)` of `src/unnamed/part_001` does not
return the literal table `[1000, 180, 260, ...]` (it yields 130 rather than 180
at index 1, and so on). -/
theorem generateMultipliers_high16_ne_literal :
    generateMultipliers Risk.high 16 ≠
      [1000, 180, 260, 91, 48, 22, 2, 2, 2, 2, 24, 44, 94, 268, 630, 0] := by
  intro hcon
  rw [generateMultipliers_high16_eval] at hcon
  simp only [List.cons.injEq] at hcon
  norm_num at hcon

/-- Claim C1, amended: the literal sequence
`[1000, 180, 260, 91, 48, 22, 2, 2, 2, 2, 24, 44, 94, 268, 630, 0]` is the
hard-coded high-risk table of `PlinkoGame.generateMultipliers` in
`src/scripts/game-logic.js`; the parametric `Utils.generateMultipliers` called
with risk high and 16 slots instead returns the curve-generated table
`[1000, 130, 26, 153, 63, 2, 2, 0.2, 0.2, 0.2, 2, 2, 63, 26, 130, 1000]`. -/
theorem multiplier_tables_high16 :
    gameLogicMultipliers Risk.high =
      [1000, 180, 260, 91, 48, 22, 2, 2, 2, 2, 24, 44, 94, 268, 630, 0] ∧
    generateMultipliers Risk.high 16 =
      [1000, 130, 26, 153, 63, 2, 2, 0.2, 0.2, 0.2, 2, 2, 63, 26, 130, 1000] :=
  ⟨rfl, generateMultipliers_high16_eval⟩

/-- Claim C4, counterexample: for the high tier with 16 slots the generated
table is not symmetric; index 3 holds 153 while its mirror index 12 holds 63. -/
theorem generateMultipliers_asymmetric_high16 :
    (generateMultipliers Risk.high 16).getD 3 0 ≠
      (generateMultipliers Risk.high 16).getD (16 - 1 - 3) 0 := by
  rw [show 16 - 1 - 3 = 12 from rfl]
  rw [generateMultipliers_getD Risk.high 16 3 (by norm_num),
    generateMultipliers_getD Risk.high 16 12 (by norm_num)]
  rw [high16_at3, high16_at12]
  norm_num

/-- Claim C4, amended: for every risk tier and every odd slot count at least 3,
the generated multiplier table is symmetric, `table[i] = table[slots-1-i]`
(for even slot counts symmetry fails, see the counterexample). -/
theorem generateMultipliers_symmetric (risk : Risk) (slots i : ℕ) (_h3 : 3 ≤ slots)
    (hodd : slots % 2 = 1) (hi : i < slots) :
    (generateMultipliers risk slots).getD i 0 =
      (generateMultipliers risk slots).getD (slots - 1 - i) 0 := by
  rw [generateMultipliers_getD risk slots i hi,
    generateMultipliers_getD risk slots (slots - 1 - i) (by omega)]
  exact multiplierAt_symm risk slots i hodd hi

theorem generateMultipliers_symmetric_witness :
    (generateMultipliers Risk.high 5).getD 1 0 =
      (generateMultipliers Risk.high 5).getD (5 - 1 - 1) 0 :=
  generateMultipliers_symmetric Risk.high 5 1 (by decide) (by decide) (by decide)

/-- Claim C7: for every risk tier and slot count at least 3, the curve value
(the formula used before the high-risk edge overrides) falls off monotonically
from the left edge toward the centre index `⌊slots/2⌋`. -/
theorem curveMultiplier_antitone (risk : Risk) (slots i : ℕ) (h3 : 3 ≤ slots)
    (hi : i + 1 ≤ slots / 2) :
    curveMultiplier risk slots (i + 1) ≤ curveMultiplier risk slots i := by
  simp only [curveMultiplier]
  have hcn : 1 ≤ slots / 2 := by omega
  have hc : (0 : ℚ) < ((slots / 2 : ℕ) : ℚ) := by exact_mod_cast hcn
  have hij : ((i + 1 : ℕ) : ℚ) ≤ ((slots / 2 : ℕ) : ℚ) := by exact_mod_cast hi
  have hii : ((i : ℕ) : ℚ) ≤ ((slots / 2 : ℕ) : ℚ) := by
    have hii0 : i ≤ slots / 2 := by omega
    exact_mod_cast hii0
  have habs1 : |((i + 1 : ℕ) : ℚ) - ((slots / 2 : ℕ) : ℚ)| =
      ((slots / 2 : ℕ) : ℚ) - ((i + 1 : ℕ) : ℚ) := by
    rw [abs_sub_comm]
    exact abs_of_nonneg (by linarith)
  have habs0 : |((i : ℕ) : ℚ) - ((slots / 2 : ℕ) : ℚ)| =
      ((slots / 2 : ℕ) : ℚ) - ((i : ℕ) : ℚ) := by
    rw [abs_sub_comm]
    exact abs_of_nonneg (by linarith)
  rw [habs1, habs0]
  have hd1 : (0 : ℚ) ≤ (((slots / 2 : ℕ) : ℚ) - ((i + 1 : ℕ) : ℚ)) / ((slots / 2 : ℕ) : ℚ) :=
    div_nonneg (by linarith) (le_of_lt hc)
  apply roundVal_mono
  · apply mul_nonneg (sq_nonneg _)
    exact pow_nonneg hd1 _
  · refine mul_le_mul_of_nonneg_left ?_ (sq_nonneg _)
    refine pow_le_pow_left₀ hd1 ?_ _
    refine (div_le_div_iff_of_pos_right hc).mpr ?_
    have : ((i : ℕ) : ℚ) ≤ ((i + 1 : ℕ) : ℚ) := by push_cast; linarith
    linarith

theorem curveMultiplier_antitone_witness :
    curveMultiplier Risk.low 5 (0 + 1) ≤ curveMultiplier Risk.low 5 0 :=
  curveMultiplier_antitone Risk.low 5 0 (by decide) (by decide)

/-! ### Board objects -/

/-- Peg from the sources: position, radius and the visual hit flag. -/
structure Peg (α : Type) where
  x : α
  y : α
  radius : α
  hit : Bool
deriving DecidableEq

/-- Slot layout record from `PlinkoGame.generateSlots` in `src/js/game.js`. -/
structure Slot (α : Type) where
  x : α
  y : α
  width : α
  height : α
deriving DecidableEq

/-- Ball record from `PhysicsEngine.createBall` in `src/js/physics.js`. -/
structure Ball (α : Type) where
  x : α
  y : α
  vx : α
  vy : α
  radius : α
  rotation : α
  sleeping : Bool
  path : List (α × α)
  inSlot : Bool
  slotIndex : ℤ
deriving DecidableEq

/-! ### Spatial grid (`SpatialGrid` in `src/js/physics.js`) -/

section SpatialGrid

variable {α : Type} [LinearOrderedField α] [FloorRing α]

/-- `SpatialGrid.getCellKey`: cell coordinates `(⌊x/cellSize⌋, ⌊y/cellSize⌋)`.
The JS string key is modelled by the integer pair itself; the string encoding
of a pair of integers is injective, so buckets coincide. -/
def getCellKey (cellSize x y : α) : ℤ × ℤ := (⌊x / cellSize⌋, ⌊y / cellSize⌋)

/-- `SpatialGrid.addObject`: push the peg onto the bucket of its cell. -/
def addObject (cellSize : α) (grid : ℤ × ℤ → List (Peg α)) (p : Peg α) :
    ℤ × ℤ → List (Peg α) :=
  fun k => if k = getCellKey cellSize p.x p.y then grid k ++ [p] else grid k

/-- `PhysicsEngine.init`: clear the grid, then add every peg. -/
def buildGrid (cellSize : α) (pegs : List (Peg α)) : ℤ × ℤ → List (Peg α) :=
  pegs.foldl (addObject cellSize) (fun _ => [])

/-- Offsets `-cellRadius .. cellRadius` scanned by the two query loops
(empty when `cellRadius < 0`, as the JS loop body would not run). -/
def cellOffsets (cellRadius : ℤ) : List ℤ :=
  (List.range (2 * cellRadius + 1).toNat).map (fun (t : ℕ) => (t : ℤ) - cellRadius)

/-- `SpatialGrid.getObjectsNear`: concatenate the buckets of all cells within
`⌈radius/cellSize⌉` cells of the query point's cell, row by row. -/
def getObjectsNear (cellSize : α) (grid : ℤ × ℤ → List (Peg α)) (x y radius : α) :
    List (Peg α) :=
  let cr : ℤ := ⌈radius / cellSize⌉
  (cellOffsets cr).flatMap fun i =>
    (cellOffsets cr).flatMap fun j =>
      grid (⌊x / cellSize⌋ + i, ⌊y / cellSize⌋ + j)

lemma mem_buildGrid_iff (cellSize : α) (pegs : List (Peg α)) (p : Peg α) (k : ℤ × ℤ) :
    p ∈ buildGrid cellSize pegs k ↔ p ∈ pegs ∧ getCellKey cellSize p.x p.y = k := by
  have main : ∀ (l : List (Peg α)) (g : ℤ × ℤ → List (Peg α)),
      p ∈ l.foldl (addObject cellSize) g k ↔
        p ∈ g k ∨ (p ∈ l ∧ getCellKey cellSize p.x p.y = k) := by
    intro l
    induction l with
    | nil =>
      intro g
      simp
    | cons q t ih =>
      intro g
      rw [List.foldl_cons, ih]
      simp only [addObject, List.mem_cons]
      by_cases hk : k = getCellKey cellSize q.x q.y
      · rw [if_pos hk]
        simp only [List.mem_append, List.mem_singleton]
        constructor
        · rintro ((hp | hp) | hp)
          · exact Or.inl hp
          · subst hp
            exact Or.inr ⟨Or.inl rfl, hk.symm⟩
          · exact Or.inr ⟨Or.inr hp.1, hp.2⟩
        · rintro (hp | ⟨(hp | hp), hkey⟩)
          · exact Or.inl (Or.inl hp)
          · subst hp
            exact Or.inl (Or.inr rfl)
          · exact Or.inr ⟨hp, hkey⟩
      · rw [if_neg hk]
        constructor
        · rintro (hp | hp)
          · exact Or.inl hp
          · exact Or.inr ⟨Or.inr hp.1, hp.2⟩
        · rintro (hp | ⟨(hp | hp), hkey⟩)
          · exact Or.inl hp
          · subst hp
            exact absurd hkey.symm hk
          · exact Or.inr ⟨hp, hkey⟩
  rw [buildGrid, main]
  simp

lemma mem_cellOffsets {cr t : ℤ} (h : |t| ≤ cr) : t ∈ cellOffsets cr := by
  obtain ⟨hl, hr⟩ := abs_le.mp h
  have h1 : (t + cr).toNat < (2 * cr + 1).toNat := by omega
  have h2 : ((t + cr).toNat : ℤ) - cr = t := by omega
  unfold cellOffsets
  exact List.mem_map.mpr ⟨(t + cr).toNat, List.mem_range.mpr h1, h2⟩

lemma mem_getObjectsNear (cellSize x y radius : α) (grid : ℤ × ℤ → List (Peg α))
    (p : Peg α) (i j : ℤ)
    (hi : |i| ≤ ⌈radius / cellSize⌉) (hj : |j| ≤ ⌈radius / cellSize⌉)
    (hp : p ∈ grid (⌊x / cellSize⌋ + i, ⌊y / cellSize⌋ + j)) :
    p ∈ getObjectsNear cellSize grid x y radius := by
  unfold getObjectsNear
  rw [List.mem_flatMap]
  refine ⟨i, mem_cellOffsets hi, ?_⟩
  rw [List.mem_flatMap]
  exact ⟨j, mem_cellOffsets hj, hp⟩

/-- Claim C3: for pegs bucketed by `addObject` into a grid with positive cell
size, a query with positive radius returns every peg whose centre lies within
Euclidean distance `radius` of the query point: no false negatives. -/
theorem getObjectsNear_no_false_negatives (cellSize radius x y : ℚ)
    (pegs : List (Peg ℚ)) (p : Peg ℚ)
    (hcell : 0 < cellSize) (hrad : 0 < radius) (hmem : p ∈ pegs)
    (hdist : (p.x - x) ^ 2 + (p.y - y) ^ 2 ≤ radius ^ 2) :
    p ∈ getObjectsNear cellSize (buildGrid cellSize pegs) x y radius := by
  have hdx : |p.x - x| ≤ radius := by
    rw [abs_le]
    constructor
    · nlinarith [sq_nonneg (p.y - y), sq_nonneg (p.x - x + radius)]
    · nlinarith [sq_nonneg (p.y - y), sq_nonneg (p.x - x - radius)]
  have hdy : |p.y - y| ≤ radius := by
    rw [abs_le]
    constructor
    · nlinarith [sq_nonneg (p.x - x), sq_nonneg (p.y - y + radius)]
    · nlinarith [sq_nonneg (p.x - x), sq_nonneg (p.y - y - radius)]
  have hcle : radius / cellSize ≤ ((⌈radius / cellSize⌉ : ℤ) : ℚ) := Int.le_ceil _
  have bound : ∀ q w : ℚ, |q - w| ≤ radius →
      |⌊q / cellSize⌋ - ⌊w / cellSize⌋| ≤ ⌈radius / cellSize⌉ := by
    intro q w hqw
    obtain ⟨hqw1, hqw2⟩ := abs_le.mp hqw
    rw [abs_le]
    constructor
    · have h1 : w / cellSize - ((⌈radius / cellSize⌉ : ℤ) : ℚ) ≤ q / cellSize := by
        calc w / cellSize - ((⌈radius / cellSize⌉ : ℤ) : ℚ)
            ≤ w / cellSize - radius / cellSize := by linarith
          _ = (w - radius) / cellSize := by ring
          _ ≤ q / cellSize := (div_le_div_iff_of_pos_right hcell).mpr (by linarith)
      have h3 := Int.floor_le_floor h1
      rw [Int.floor_sub_int] at h3
      omega
    · have h1 : q / cellSize ≤ w / cellSize + ((⌈radius / cellSize⌉ : ℤ) : ℚ) := by
        calc q / cellSize ≤ (w + radius) / cellSize :=
            (div_le_div_iff_of_pos_right hcell).mpr (by linarith)
          _ = w / cellSize + radius / cellSize := by ring
          _ ≤ w / cellSize + ((⌈radius / cellSize⌉ : ℤ) : ℚ) := by linarith
      have h3 := Int.floor_le_floor h1
      rw [Int.floor_add_int] at h3
      omega
  have key := (mem_buildGrid_iff cellSize pegs p (getCellKey cellSize p.x p.y)).mpr ⟨hmem, rfl⟩
  apply mem_getObjectsNear cellSize x y radius _ p
    (⌊p.x / cellSize⌋ - ⌊x / cellSize⌋) (⌊p.y / cellSize⌋ - ⌊y / cellSize⌋)
    (bound p.x x hdx) (bound p.y y hdy)
  have hfix : (⌊x / cellSize⌋ + (⌊p.x / cellSize⌋ - ⌊x / cellSize⌋),
      ⌊y / cellSize⌋ + (⌊p.y / cellSize⌋ - ⌊y / cellSize⌋)) =
      getCellKey cellSize p.x p.y := by
    unfold getCellKey
    rw [Prod.mk.injEq]
    omega
  rw [hfix]
  exact key

theorem getObjectsNear_no_false_negatives_witness :
    (⟨5, 5, 4, false⟩ : Peg ℚ) ∈
      getObjectsNear (40 : ℚ) (buildGrid 40 [⟨5, 5, 4, false⟩]) 0 0 10 :=
  getObjectsNear_no_false_negatives 40 10 0 0 [⟨5, 5, 4, false⟩] ⟨5, 5, 4, false⟩
    (by norm_num) (by norm_num) (by simp) (by norm_num)

end SpatialGrid

/-! ### Slot layout and slot entry -/

section Slots

variable {α : Type} [LinearOrderedField α]

/-- One slot of `PlinkoGame.generateSlots` in `src/js/game.js`: `count`
equal-width columns, each at `y = height - SLOT_HEIGHT` with
`SLOT_HEIGHT = 40`. -/
def mkSlot (count : ℤ) (width height : α) (i : ℕ) : Slot α :=
  ⟨(i : α) * (width / ((count : ℤ) : α)), height - 40, width / ((count : ℤ) : α), 40⟩

/-- `PlinkoGame.generateSlots`: the loop body runs for `0 ≤ i < count`. -/
def generateSlots (count : ℤ) (width height : α) : List (Slot α) :=
  (List.range count.toNat).map (mkSlot count width height)

/-- Slot-entry condition of `PhysicsEngine.checkSlotEntry` in
`src/js/physics.js`: strict containment in the slot's horizontal span and
vertical position strictly below the slot's threshold. -/
def slotHit (s : Slot α) (b : Ball α) : Prop :=
  b.x > s.x ∧ b.x < s.x + s.width ∧ b.y > s.y

instance (s : Slot α) (b : Ball α) : Decidable (slotHit s b) := by
  unfold slotHit
  infer_instance

/-- Effect of entering slot `idx`: mark landed, record the index, zero the
velocity, centre the ball horizontally in the slot. -/
def landBall (s : Slot α) (idx : ℤ) (b : Ball α) : Ball α :=
  { b with inSlot := true, slotIndex := idx, vx := 0, vy := 0, x := s.x + s.width / 2 }

/-- `PhysicsEngine.checkSlotEntry`: scan the slots in order and land the ball
in the first slot whose test passes (the source `return`s on the first hit). -/
def checkSlotEntryFrom : List (Slot α) → ℤ → Ball α → Ball α
  | [], _, b => b
  | s :: rest, idx, b =>
    if slotHit s b then landBall s idx b else checkSlotEntryFrom rest (idx + 1) b

/-- Entry point of the scan, starting at index 0. -/
def checkSlotEntry (slots : List (Slot α)) (b : Ball α) : Ball α :=
  checkSlotEntryFrom slots 0 b

lemma checkSlotEntryFrom_range (b : Ball α) :
    ∀ (n : ℕ) (f : ℕ → Slot α) (idx : ℤ) (i : ℕ), i < n → slotHit (f i) b →
      (∀ k, k < i → ¬ slotHit (f k) b) →
      checkSlotEntryFrom ((List.range n).map f) idx b = landBall (f i) (idx + i) b := by
  intro n
  induction n with
  | zero =>
    intro f idx i hi
    omega
  | succ n ih =>
    intro f idx i hi hhit hprev
    rw [List.range_succ_eq_map, List.map_cons, List.map_map]
    cases i with
    | zero =>
      simp only [checkSlotEntryFrom]
      rw [if_pos hhit]
      simp
    | succ k =>
      have h0 : ¬ slotHit (f 0) b := hprev 0 (by omega)
      simp only [checkSlotEntryFrom]
      rw [if_neg h0]
      have hhit2 : slotHit ((f ∘ Nat.succ) k) b := hhit
      have hprev2 : ∀ m, m < k → ¬ slotHit ((f ∘ Nat.succ) m) b := by
        intro m hm
        exact hprev (m + 1) (by omega)
      rw [ih (f ∘ Nat.succ) (idx + 1) k (by omega) hhit2 hprev2]
      have harith : idx + 1 + (k : ℤ) = idx + ((k + 1 : ℕ) : ℤ) := by push_cast; ring
      rw [Function.comp_apply, harith]

end Slots

/-- Claim C5: if a falling ball's horizontal position lies strictly inside
slot `i`'s span and its vertical position is below the slot threshold
`height - 40`, the slot-entry check on the generated layout lands the ball in
slot `i`: `inSlot` is set, the velocity becomes `(0,0)`, the horizontal
position snaps to the slot's centre and the slot index `i` is recorded. -/
theorem checkSlotEntry_lands (count : ℤ) (width height : ℚ) (b : Ball ℚ) (i : ℕ)
    (hcount : (i : ℤ) < count) (hw : 0 < width)
    (hx1 : (i : ℚ) * (width / ((count : ℤ) : ℚ)) < b.x)
    (hx2 : b.x < ((i : ℚ) + 1) * (width / ((count : ℤ) : ℚ)))
    (hy : b.y > height - 40) :
    checkSlotEntry (generateSlots count width height) b =
      { b with
        inSlot := true
        slotIndex := (i : ℤ)
        vx := 0
        vy := 0
        x := (i : ℚ) * (width / ((count : ℤ) : ℚ)) + (width / ((count : ℤ) : ℚ)) / 2 } := by
  have hcpos : (0 : ℤ) < count := by omega
  have hcq : (0 : ℚ) < ((count : ℤ) : ℚ) := by exact_mod_cast hcpos
  have hwq : (0 : ℚ) < width / ((count : ℤ) : ℚ) := div_pos hw hcq
  have hhit : slotHit (mkSlot count width height i) b := by
    refine ⟨hx1, ?_, hy⟩
    have : ((i : ℚ) + 1) * (width / ((count : ℤ) : ℚ)) =
        (i : ℚ) * (width / ((count : ℤ) : ℚ)) + width / ((count : ℤ) : ℚ) := by ring
    rw [mkSlot]
    rw [this] at hx2
    exact hx2
  have hprev : ∀ k, k < i → ¬ slotHit (mkSlot count width height k) b := by
    intro k hk hcon
    obtain ⟨hc1, hc2, hc3⟩ := hcon
    rw [mkSlot] at hc2
    have hk1 : ((k : ℚ) + 1) ≤ (i : ℚ) := by exact_mod_cast hk
    have : (k : ℚ) * (width / ((count : ℤ) : ℚ)) + width / ((count : ℤ) : ℚ) ≤
        (i : ℚ) * (width / ((count : ℤ) : ℚ)) := by nlinarith
    simp only [mkSlot] at hc2
    linarith
  have hlen : i < count.toNat := by omega
  rw [checkSlotEntry, generateSlots,
    checkSlotEntryFrom_range b count.toNat (mkSlot count width height) 0 i hlen hhit hprev]
  simp [landBall, mkSlot]

theorem checkSlotEntry_lands_witness :
    checkSlotEntry (generateSlots 2 (100 : ℚ) 500)
      ⟨75, 470, 1, 1, 8, 0, false, [], false, -1⟩ =
      { (⟨75, 470, 1, 1, 8, 0, false, [], false, -1⟩ : Ball ℚ) with
        inSlot := true
        slotIndex := ((1 : ℕ) : ℤ)
        vx := 0
        vy := 0
        x := ((1 : ℕ) : ℚ) * ((100 : ℚ) / ((2 : ℤ) : ℚ)) +
          ((100 : ℚ) / ((2 : ℤ) : ℚ)) / 2 } :=
  checkSlotEntry_lands 2 100 500 ⟨75, 470, 1, 1, 8, 0, false, [], false, -1⟩ 1
    (by norm_num) (by norm_num) (by norm_num) (by norm_num) (by norm_num)

/-! ### Forced landing on timeout (`PlinkoGame.dropBall` in `src/js/game.js`) -/

/-- `Utils.random(min, max) = Math.random() * (max - min) + min`, with the
`Math.random()` draw `r ∈ [0, 1)` passed explicitly. -/
def jsRandom (r min max : ℚ) : ℚ := r * (max - min) + min

/-- Slot index assigned by the 10-second drop timeout when the ball has not
entered a slot: `Math.floor(Utils.random(0, slots.length))`. -/
def forcedSlotIndex (r : ℚ) (slotCount : ℕ) : ℤ :=
  ⌊jsRandom r 0 (slotCount : ℚ)⌋

/-- Claim C6: for every `Math.random()` draw `r ∈ [0, 1)` and every
`slotCount ≥ 1`, the timeout path assigns an integer index in
`[0, slotCount)`; it can never be out of range. -/
theorem forcedSlotIndex_in_range (r : ℚ) (slotCount : ℕ)
    (h0 : 0 ≤ r) (h1 : r < 1) (hn : 1 ≤ slotCount) :
    0 ≤ forcedSlotIndex r slotCount ∧ forcedSlotIndex r slotCount < slotCount := by
  have hnq : (1 : ℚ) ≤ (slotCount : ℚ) := by exact_mod_cast hn
  unfold forcedSlotIndex jsRandom
  constructor
  · apply Int.le_floor.mpr
    push_cast
    nlinarith
  · apply Int.floor_lt.mpr
    push_cast
    nlinarith

theorem forcedSlotIndex_in_range_witness :
    0 ≤ forcedSlotIndex (1 / 2) 17 ∧ forcedSlotIndex (1 / 2) 17 < 17 :=
  forcedSlotIndex_in_range (1 / 2) 17 (by norm_num) (by norm_num) (by norm_num)

/-! ### Board generation and configuration changes (`src/js/game.js`) -/

/-- `PlinkoGame.generatePegs`: triangular layout with `PEG_SPACING = 40` and
`PEG_RADIUS = 4`; row `r` (of `rows` rows, loop for `0 ≤ r < rows`) holds
`r + 1` pegs, rows are spread between `startY = 80` and
`endY = height - SLOT_HEIGHT - 20`, and even rows are shifted by half the
spacing. -/
def generatePegs (rows : ℤ) (width height : ℚ) : List (Peg ℚ) :=
  let rowHeight : ℚ := (height - 60 - 80) / ((rows : ℚ) - 1)
  (List.range rows.toNat).flatMap fun (row : ℕ) =>
    (List.range (row + 1)).map fun (col : ℕ) =>
      { x := (width - ((row : ℚ) + 1) * 40) / 2 + (if row % 2 = 0 then 20 else 0) +
          (col : ℚ) * 40
        y := 80 + (row : ℚ) * rowHeight
        radius := 4
        hit := false }

/-- Board-related fields of `PlinkoGame.gameState`. -/
structure GameState where
  rows : ℤ
  risk : Risk
  pegs : List (Peg ℚ)
  slots : List (Slot ℚ)
  multipliers : List ℚ

/-- `PlinkoGame.initGame`: regenerate pegs, `rows + 1` slots, and the
multiplier table from the current settings.  No validation is performed. -/
def initGame (width height : ℚ) (risk : Risk) (rows : ℤ) : GameState :=
  { rows := rows
    risk := risk
    pegs := generatePegs rows width height
    slots := generateSlots (rows + 1) width height
    multipliers := generateMultipliers risk (rows + 1).toNat }

/-- Rows-count change handler in `PlinkoGame.setupEventListeners`: store the
parsed value and rerun `initGame`, unconditionally. -/
def onRowsChange (st : GameState) (width height : ℚ) (newRows : ℤ) : GameState :=
  initGame width height st.risk newRows

/-- Risk-level change handler: only the multiplier table is regenerated, for
`rows + 1` slots. -/
def onRiskChange (st : GameState) (newRisk : Risk) : GameState :=
  { st with
    risk := newRisk
    multipliers := generateMultipliers newRisk (st.rows + 1).toNat }

/-- Claim C8, counterexample: a rows-count change to 0 (a non-positive
`rowCount`) is not rejected: applied to the valid 16-row board it replaces the
17-slot layout with a single-slot one. -/
theorem invalid_config_replaces_layout :
    (onRowsChange (initGame 400 600 Risk.high 16) 400 600 0).slots ≠
      (initGame 400 600 Risk.high 16).slots := by
  intro hcon
  have hlen := congrArg List.length hcon
  simp only [onRowsChange, initGame, generateSlots, List.length_map,
    List.length_range] at hlen
  omega

/-- Claim C8, amended: configuration requests are not validated.  A
non-positive `rowCount` flows through `initGame` and replaces the previous
layout with a degenerate one: the new state stores the bad row count, an empty
peg list, and `max(rowCount+1, 0)` slots and multipliers. -/
theorem nonpositive_rows_applied (st : GameState) (width height : ℚ) (n : ℤ)
    (hn : n ≤ 0) :
    (onRowsChange st width height n).rows = n ∧
    (onRowsChange st width height n).pegs = [] ∧
    (onRowsChange st width height n).slots.length = (n + 1).toNat ∧
    (onRowsChange st width height n).multipliers.length = (n + 1).toNat := by
  refine ⟨rfl, ?_, ?_, ?_⟩
  · simp [onRowsChange, initGame, generatePegs, Int.toNat_of_nonpos hn]
  · simp [onRowsChange, initGame, generateSlots]
  · simp [onRowsChange, initGame, generateMultipliers]

theorem nonpositive_rows_applied_witness :
    (onRowsChange (initGame 400 600 Risk.high 16) 400 600 0).rows = 0 ∧
    (onRowsChange (initGame 400 600 Risk.high 16) 400 600 0).pegs = [] ∧
    (onRowsChange (initGame 400 600 Risk.high 16) 400 600 0).slots.length =
      ((0 : ℤ) + 1).toNat ∧
    (onRowsChange (initGame 400 600 Risk.high 16) 400 600 0).multipliers.length =
      ((0 : ℤ) + 1).toNat :=
  nonpositive_rows_applied (initGame 400 600 Risk.high 16) 400 600 0 (by decide)

/-- Claim C9: after every regeneration with `rowCount ≥ 0` the slot count and
the multiplier count both equal `rowCount + 1`, and both a risk-tier change
and a subsequent row-count change preserve the invariant. -/
theorem slots_multipliers_length (width height width2 height2 : ℚ)
    (risk risk2 : Risk) (rows rows2 : ℤ) (h : 0 ≤ rows) (h2 : 0 ≤ rows2) :
    ((initGame width height risk rows).slots.length = rows.toNat + 1 ∧
      (initGame width height risk rows).multipliers.length = rows.toNat + 1) ∧
    ((onRiskChange (initGame width height risk rows) risk2).slots.length = rows.toNat + 1 ∧
      (onRiskChange (initGame width height risk rows) risk2).multipliers.length
        = rows.toNat + 1) ∧
    ((onRowsChange (initGame width height risk rows) width2 height2 rows2).slots.length
        = rows2.toNat + 1 ∧
      (onRowsChange (initGame width height risk rows) width2 height2 rows2).multipliers.length
        = rows2.toNat + 1) := by
  have key : ∀ (w h : ℚ) (rk : Risk) (n : ℤ), 0 ≤ n →
      (initGame w h rk n).slots.length = n.toNat + 1 ∧
      (initGame w h rk n).multipliers.length = n.toNat + 1 := by
    intro w h rk n hn
    constructor
    · simp only [initGame, generateSlots, List.length_map, List.length_range]
      omega
    · simp only [initGame, generateMultipliers, List.length_map, List.length_range]
      omega
  refine ⟨key width height risk rows h, ⟨?_, ?_⟩, key width2 height2 risk rows2 h2⟩
  · simp only [onRiskChange]
    exact (key width height risk rows h).1
  · simp only [onRiskChange, generateMultipliers, List.length_map, List.length_range, initGame]
    omega

theorem slots_multipliers_length_witness :
    (((initGame 400 600 Risk.high 16).slots.length = (16 : ℤ).toNat + 1 ∧
      (initGame 400 600 Risk.high 16).multipliers.length = (16 : ℤ).toNat + 1) ∧
    ((onRiskChange (initGame 400 600 Risk.high 16) Risk.low).slots.length
        = (16 : ℤ).toNat + 1 ∧
      (onRiskChange (initGame 400 600 Risk.high 16) Risk.low).multipliers.length
        = (16 : ℤ).toNat + 1) ∧
    ((onRowsChange (initGame 400 600 Risk.high 16) 500 700 8).slots.length
        = (8 : ℤ).toNat + 1 ∧
      (onRowsChange (initGame 400 600 Risk.high 16) 500 700 8).multipliers.length
        = (8 : ℤ).toNat + 1)) :=
  slots_multipliers_length 400 600 500 700 Risk.high Risk.low 16 8 (by decide) (by decide)

/-! ### Collision resolution and per-ball update (`src/js/physics.js`) -/

/-- Resolution of a single ball-peg overlap from
`PhysicsEngine.handleCollisions`, with the `Utils.random(-0.1, 0.1)` draw
passed in as `r`.  The source divides `dx` and `dy` by `distance` with no
zero-distance check; when `distance = 0` under overlap, the JS normal is
`0/0 = NaN` and poisons the ball's position and velocity, which is modelled
by the non-finite marker `none`.  The transient `peg.hit` animation flag is
visual only and not modelled. -/
noncomputable def resolvePegCollision (restitution friction : ℝ) (b : Ball ℝ) (p : Peg ℝ)
    (r : ℝ) : Option (Ball ℝ) :=
  let dx := b.x - p.x
  let dy := b.y - p.y
  let dist := Real.sqrt (dx * dx + dy * dy)
  let minDist := b.radius + p.radius
  if dist < minDist then
    if dist = 0 then none
    else
      let nx := dx / dist
      let ny := dy / dist
      let relVel := b.vx * nx + b.vy * ny
      let impulse := 2 * relVel * restitution
      let vx1 := b.vx - impulse * nx
      let vy1 := b.vy - impulse * ny
      let tanVel := vx1 * (-ny) + vy1 * nx
      let vx2 := vx1 - tanVel * friction * (-ny)
      let vy2 := vy1 - tanVel * friction * nx
      let overlap := minDist - dist
      some { b with
        x := b.x + overlap * nx
        y := b.y + overlap * ny
        vx := vx2 + r
        vy := vy2 }
  else some b

/-- Wall bounce at the end of `PhysicsEngine.handleCollisions`: clamp to the
window edge and invert the horizontal velocity scaled by restitution. -/
noncomputable def wallBounce (restitution windowWidth : ℝ) (b : Ball ℝ) : Ball ℝ :=
  if b.x - b.radius < 0 then { b with x := b.radius, vx := -b.vx * restitution }
  else if b.x + b.radius > windowWidth then
    { b with x := windowWidth - b.radius, vx := -b.vx * restitution }
  else b

/-- `PhysicsEngine.handleCollisions`: query the spatial grid at radius
`ball.radius * 3`, resolve each nearby peg in order against the current ball
state, then apply the wall bounce.  `rand k` is the random draw available to
the collision with the k-th queried peg.  A NaN ball fails every later
comparison in JS and passes through unchanged, matching `none` propagation. -/
noncomputable def handleCollisions (restitution friction windowWidth : ℝ)
    (grid : ℤ × ℤ → List (Peg ℝ)) (cellSize : ℝ) (rand : ℕ → ℝ) (b : Ball ℝ) :
    Option (Ball ℝ) :=
  let nearby := getObjectsNear cellSize grid b.x b.y (b.radius * 3)
  let afterPegs := (nearby.foldl
    (fun (acc : Option (Ball ℝ) × ℕ) (p : Peg ℝ) =>
      match acc with
      | (none, k) => (none, k + 1)
      | (some ball, k) => (resolvePegCollision restitution friction ball p (rand k), k + 1))
    (some b, 0)).1
  afterPegs.map (wallBounce restitution windowWidth)

/-- `PhysicsEngine.updateBall`: terminal balls (out of bounds, sleeping, or in
a slot) are skipped; otherwise gravity is applied to the vertical velocity,
the position is integrated, air resistance damps the velocity, collisions are
resolved, the rotation advances, the trail is recorded every third frame, the
slot-entry test runs, and slow low balls are put to sleep.  `windowHeight` is
`window.innerHeight` and `frameCounter` the engine's frame counter. -/
noncomputable def updateBall (gravity restitution friction windowWidth windowHeight : ℝ)
    (grid : ℤ × ℤ → List (Peg ℝ)) (cellSize : ℝ) (slots : List (Slot ℝ))
    (frameCounter : ℕ) (rand : ℕ → ℝ) (b : Ball ℝ) (deltaTime : ℝ) : Option (Ball ℝ) :=
  if b.y > windowHeight + 100 ∨ b.sleeping ∨ b.inSlot then some b
  else
    let timeScale := deltaTime / (1000 / 60)
    let vy1 := b.vy + gravity * timeScale
    let b1 : Ball ℝ := { b with
      x := b.x + b.vx * timeScale
      y := b.y + vy1 * timeScale
      vx := b.vx * 0.998
      vy := vy1 * 0.998 }
    (handleCollisions restitution friction windowWidth grid cellSize rand b1).map fun b2 =>
      let b3 : Ball ℝ := { b2 with rotation := b2.rotation + b2.vx * 0.1 }
      let b4 : Ball ℝ :=
        if frameCounter % 3 = 0 then { b3 with path := b3.path ++ [(b3.x, b3.y)] } else b3
      let b5 := checkSlotEntry slots b4
      if |b5.vx| < 0.05 ∧ |b5.vy| < 0.05 ∧ b5.y > windowHeight - 100 then
        { b5 with sleeping := true }
      else b5

/-- Claim C2, counterexample: with the ball's centre exactly on a peg's centre
the resolver divides zero by zero; there is no fallback normal and the ball's
position and velocity do not remain finite (the result is the non-finite
marker `none`, the model of the JS NaN state). -/
theorem degenerate_collision_not_finite :
    resolvePegCollision 0.7 0.02 ⟨100, 100, 1, 1, 8, 0, false, [], false, -1⟩
      ⟨100, 100, 4, false⟩ 0 = none := by
  unfold resolvePegCollision
  norm_num [Real.sqrt_zero]

/-- Claim C2, amended: whenever the ball's centre coincides with an
overlapping peg's centre, the per-peg collision resolution performs the
division `0/0`: the normal is NaN and the resulting ball state is not finite
(`none`), for every restitution, friction and random perturbation; no
fallback normal exists in the source. -/
theorem degenerate_collision_poisons (restitution friction r : ℝ) (b : Ball ℝ) (p : Peg ℝ)
    (hx : b.x = p.x) (hy : b.y = p.y) (hrad : 0 < b.radius + p.radius) :
    resolvePegCollision restitution friction b p r = none := by
  unfold resolvePegCollision
  have hdx : b.x - p.x = 0 := by rw [hx]; ring
  have hdy : b.y - p.y = 0 := by rw [hy]; ring
  simp [hdx, hdy, Real.sqrt_zero, hrad]

theorem degenerate_collision_poisons_witness :
    resolvePegCollision 0.62 0.12 ⟨50, 80, 2, 3, 5, 0, false, [], false, -1⟩
      ⟨50, 80, 3.5, false⟩ 0.1 = none :=
  degenerate_collision_poisons 0.62 0.12 0.1 ⟨50, 80, 2, 3, 5, 0, false, [], false, -1⟩
    ⟨50, 80, 3.5, false⟩ rfl rfl (by norm_num)

/-- Claim C10: a ball in a terminal state (in a slot, sleeping, or out of
bounds) is returned unchanged by the per-ball physics update: position,
velocity, rotation, trail and recorded slot index are all untouched. -/
theorem updateBall_terminal_unchanged (gravity restitution friction windowWidth windowHeight : ℝ)
    (grid : ℤ × ℤ → List (Peg ℝ)) (cellSize : ℝ) (slots : List (Slot ℝ))
    (frameCounter : ℕ) (rand : ℕ → ℝ) (b : Ball ℝ) (deltaTime : ℝ)
    (hterm : b.y > windowHeight + 100 ∨ b.sleeping = true ∨ b.inSlot = true) :
    updateBall gravity restitution friction windowWidth windowHeight grid cellSize slots
      frameCounter rand b deltaTime = some b := by
  unfold updateBall
  rw [if_pos]
  rcases hterm with h | h | h
  · exact Or.inl h
  · exact Or.inr (Or.inl h)
  · exact Or.inr (Or.inr h)

theorem updateBall_terminal_unchanged_witness :
    updateBall 0.5 0.7 0.02 800 600 (fun _ => []) 50 [] 0 (fun _ => 0)
      ⟨100, 200, 1, 1, 8, 0, false, [], true, 3⟩ 16 =
      some ⟨100, 200, 1, 1, 8, 0, false, [], true, 3⟩ :=
  updateBall_terminal_unchanged 0.5 0.7 0.02 800 600 (fun _ => []) 50 [] 0 (fun _ => 0)
    ⟨100, 200, 1, 1, 8, 0, false, [], true, 3⟩ 16 (Or.inr (Or.inr rfl))

/-- Claim C5, counterexample: the slot-entry test uses strict inequalities.  A
ball exactly on slot 0's left edge (`x = slot.x = 0`), although inside the
half-open span `[x, x + width)` of the specification and below the threshold,
is not landed: the check returns it unchanged (`inSlot` stays false). -/
theorem checkSlotEntry_boundary_missed :
    checkSlotEntry (generateSlots 2 (100 : ℚ) 500)
      ⟨0, 470, 1, 1, 8, 0, false, [], false, -1⟩ =
      ⟨0, 470, 1, 1, 8, 0, false, [], false, -1⟩ := by
  have hr : List.range (2 : ℤ).toNat = [0, 1] := by
    rw [show (2 : ℤ).toNat = 2 from rfl]
    rw [show (2 : ℕ) = 1 + 1 from rfl, List.range_succ]
    rw [show (1 : ℕ) = 0 + 1 from rfl, List.range_succ]
    rw [List.range_zero]
    simp
  unfold checkSlotEntry generateSlots
  rw [hr]
  simp only [List.map_cons, List.map_nil]
  simp only [checkSlotEntryFrom]
  rw [if_neg (by norm_num [slotHit, mkSlot]), if_neg (by norm_num [slotHit, mkSlot])]
